import Mathlib

/-!
Shallow embedding of the request-scoped execution-context and authorization
core of the repository: the environment extractor and identity resolver, the
policy engine (`authorize` middleware), the `MessageBus` correlation
primitive, and the `AsyncLocalStorage`-backed execution-context store.

TypeScript `Promise` resolvers in the message bus are modelled as numbered
cells (`Nat` identifiers into a `cells` map); a cell holds `none` while the
deferred value is pending and `some v` once resolved (a promise resolves at
most once, so resolving an already-resolved cell is a no-op).  Thrown
exceptions are modelled as an `Option String` component of each operation's
result: `some msg` means the operation threw; the returned state is the heap
as it stands when the exception propagates.
-/

/-- Structured result of `ua-parser-js`.  Modelled from the spec: the parsed
client-agent info is a structured record whose fields are unknown/empty when
the input is absent or unrecognised. -/
structure IResult where
  ua : String
  browser : Option String
  os : Option String
  device : Option String
deriving DecidableEq, Repr

/-- The empty/unknown parse result that `UAParser` produces for an absent or
unrecognised client-agent string. -/
def emptyResult : IResult :=
  { ua := "", browser := none, os := none, device := none }

/-- A raw inbound request: a header map and the direct connection address
(`req.connection.remoteAddress`), the only parts of `http.IncomingMessage`
this core reads. -/
structure IncomingMessage where
  headers : String → Option String
  remoteAddress : Option String

/-- Modelled from the spec: `new UAParser(userAgent).getResult()` from the
external `ua-parser-js` library.  It is total: an absent header yields the
empty result, an unrecognised string yields a record with unknown fields,
and it never throws. -/
def uaParserGetResult (userAgent : Option String) : IResult :=
  match userAgent with
  | none => emptyResult
  | some s =>
      { ua := s
        browser :=
          if (s.splitOn "Firefox").length > 1 then some "Firefox"
          else if (s.splitOn "Chrome").length > 1 then some "Chrome"
          else none
        os := if (s.splitOn "Windows").length > 1 then some "Windows" else none
        device := none }

/-- Modelled from the spec: `getClientIp` from the external `request-ip`
library: consult standard proxy-forwarding headers, then fall back to the
direct connection address; `none` models its `null`. -/
def getClientIp (req : IncomingMessage) : Option String :=
  match req.headers "x-forwarded-for" with
  | some v => some ((v.splitOn ",").headD v).trim
  | none =>
      match req.headers "x-real-ip" with
      | some v => some v
      | none => req.remoteAddress

/-- `getIp` from the authorization module: a direct call to `getClientIp`. -/
def getIp (req : IncomingMessage) : Option String :=
  getClientIp req

/-- `Environment` from `policies.ts`: request-environment attributes. -/
structure Environment where
  ip : Option String
  userAgent : Option String
  userAgentData : IResult
deriving DecidableEq, Repr

/-- `getEnv` from the authorization module: reads the user-agent header,
parses it, extracts the client address, and assembles the `Environment`. -/
def getEnv (req : IncomingMessage) : Environment :=
  let userAgent := req.headers "user-agent"
  let userAgentData := uaParserGetResult userAgent
  let ip := getIp req
  { userAgentData := userAgentData, userAgent := userAgent, ip := ip }

/-- `IdentitySubject` from `identity.ts`: an empty interface, opaque here. -/
structure IdentitySubject

/-- `isAuthenticated` from `identity.ts`: the shipped stub returns false. -/
def isAuthenticated (_req : IncomingMessage) : Bool :=
  false

/-- `getSubject` from `identity.ts`: the shipped no-op resolver; it returns
`undefined` (modelled `none`) for every request and never throws (it is a
total function). -/
def getSubject (_req : IncomingMessage) : Option IdentitySubject :=
  none

/-- A capability set (`AnyMongoAbility` in the source): opaque object
answering `can(action)`. -/
structure Ability where
  can : String → Bool

/-- `Policy` from `policies.ts`.  `R` is the (arbitrary) resource type; the
source types it `any`. -/
structure Policy (R : Type) where
  name : String
  abilities : Ability
  evaluate : Option IdentitySubject → Option R → Environment → Bool

/-- The two distinguishable failures `authorize` can throw.
`noApplicablePolicy` is the `ProblemDetailsException` thrown when no policy
is applicable (the spec calls this kind `NoApplicablePolicy`); its payload
records the `ProblemDetails` constructor arguments (type, title, status).
`forbidden` is the `@casl/ability` `ForbiddenError` raised by
`throwUnlessCan(action)`, recording the denied action. -/
inductive AuthError where
  | noApplicablePolicy (typ : String) (title : String) (status : Nat)
  | forbidden (action : String)
deriving DecidableEq, Repr

/-- The `for (const { abilities } of applicablePolicies)` loop of
`authorize`: query each applicable policy's capability set for the action,
throwing `ForbiddenError` at the first denial.  The second component is the
trace of capability queries made, in order: one `(policy name, action)` pair
per `throwUnlessCan` call. -/
def capabilityLoop {R : Type} (action : String) :
    List (Policy R) → Except AuthError Unit × List (String × String)
  | [] => (Except.ok (), [])
  | p :: rest =>
      if p.abilities.can action then
        let r := capabilityLoop action rest
        (r.1, (p.name, action) :: r.2)
      else
        (Except.error (AuthError.forbidden action), [(p.name, action)])

/-- `authorize` from the authorization module, at given subject and
environment (the middleware obtains them per request via `getSubject` and
`getEnv`): filter the policies by `evaluate(subject, null, env)`; if none is
applicable throw `ProblemDetails('forbidden', 'no sufficient permissions',
403)`; otherwise run the capability loop.  The second component is the trace
of capability queries (empty when no capability set was queried). -/
def authorize {R : Type} (ps : List (Policy R)) (action : String)
    (subject : Option IdentitySubject) (env : Environment) :
    Except AuthError Unit × List (String × String) :=
  let applicablePolicies := ps.filter fun it => it.evaluate subject none env
  if applicablePolicies.length < 1 then
    (Except.error (AuthError.noApplicablePolicy "forbidden" "no sufficient permissions" 403), [])
  else
    capabilityLoop action applicablePolicies

/-- The single statically registered policy from `policies.ts`: name
`Guest`, an `evaluate` that always returns true, and abilities built by
`defineAbility((can) => can('manage', 'all'))` — modelled from the spec:
the casl `manage`/`all` wildcards permit every action, so the capability
set answers true to every `can(action)` query. -/
def guestPolicy (R : Type) : Policy R :=
  { name := "Guest"
    evaluate := fun _subject _resource _environment => true
    abilities := { can := fun _action => true } }

/-- `policies` from `policies.ts`: the statically registered policy set. -/
def policies (R : Type) : List (Policy R) :=
  [guestPolicy R]

/-- A sample environment value, used to instantiate universally quantified
theorems at a concrete input. -/
def sampleEnv : Environment :=
  { ip := none, userAgent := none, userAgentData := emptyResult }

/-- A policy for concrete instantiations: applicable everywhere, permits
exactly the action "read". -/
def readOnlyPolicy : Policy Unit :=
  { name := "ReadOnly"
    evaluate := fun _ _ _ => true
    abilities := { can := fun action => action == "read" } }

lemma capabilityLoop_ok_iff {R : Type} (action : String) (l : List (Policy R)) :
    (capabilityLoop action l).1 = Except.ok () ↔
      ∀ p ∈ l, p.abilities.can action = true := by
  induction l with
  | nil => simp [capabilityLoop]
  | cons p rest ih =>
      by_cases h : p.abilities.can action = true
      · simp [capabilityLoop, h, ih]
      · simp [capabilityLoop, h]

lemma capabilityLoop_error_eq {R : Type} (action : String) (l : List (Policy R)) :
    (capabilityLoop action l).1 = Except.ok () ∨
      (capabilityLoop action l).1 = Except.error (AuthError.forbidden action) := by
  induction l with
  | nil => simp [capabilityLoop]
  | cons p rest ih =>
      by_cases h : p.abilities.can action = true
      · simpa [capabilityLoop, h] using ih
      · simp [capabilityLoop, h]

lemma authorize_of_applicable_ne_nil {R : Type} (ps : List (Policy R)) (action : String)
    (subject : Option IdentitySubject) (env : Environment)
    (hne : ps.filter (fun it => it.evaluate subject none env) ≠ []) :
    authorize ps action subject env =
      capabilityLoop action (ps.filter fun it => it.evaluate subject none env) := by
  have hlen : ¬ (ps.filter fun it => it.evaluate subject none env).length < 1 := by
    have := List.length_pos.mpr hne
    omega
  simp [authorize, hlen]

/-- C1: when the set of applicable policies (those whose `evaluate` returned
true for (subject, resource, environment)) is non-empty, authorization
succeeds iff every applicable policy's capability set permits the action;
in particular a single applicable policy denying the action forces the
`ForbiddenError` failure, whatever the other applicable policies answer. -/
theorem authorize_unanimous {R : Type} (ps : List (Policy R)) (action : String)
    (subject : Option IdentitySubject) (env : Environment)
    (hne : ps.filter (fun it => it.evaluate subject none env) ≠ []) :
    ((authorize ps action subject env).1 = Except.ok () ↔
      ∀ p ∈ ps.filter (fun it => it.evaluate subject none env),
        p.abilities.can action = true) ∧
    ((∃ p ∈ ps.filter (fun it => it.evaluate subject none env),
        p.abilities.can action = false) →
      (authorize ps action subject env).1 = Except.error (AuthError.forbidden action)) := by
  rw [authorize_of_applicable_ne_nil ps action subject env hne]
  refine ⟨capabilityLoop_ok_iff action _, ?_⟩
  rintro ⟨p, hp, hdeny⟩
  rcases capabilityLoop_error_eq action (ps.filter fun it => it.evaluate subject none env) with hok | herr
  · exact absurd ((capabilityLoop_ok_iff action _).mp hok p hp) (by simp [hdeny])
  · exact herr

/-- Witness for C1: with the two-policy set {Guest (allows everything),
ReadOnly (allows only "read")}, both applicable, the action "delete" is
denied by ReadOnly and authorization fails with `ForbiddenError`, even
though Guest would allow it; the action "read" is allowed unanimously and
authorization succeeds. -/
theorem authorize_unanimous_witness :
    (authorize [guestPolicy Unit, readOnlyPolicy] "delete" none sampleEnv).1 =
        Except.error (AuthError.forbidden "delete") ∧
    (authorize [guestPolicy Unit, readOnlyPolicy] "read" none sampleEnv).1 =
        Except.ok () := by
  constructor
  · exact (authorize_unanimous [guestPolicy Unit, readOnlyPolicy] "delete" none sampleEnv
      (by simp [guestPolicy, readOnlyPolicy])).2
      ⟨readOnlyPolicy, by simp [guestPolicy, readOnlyPolicy], by simp [readOnlyPolicy]⟩
  · exact (authorize_unanimous [guestPolicy Unit, readOnlyPolicy] "read" none sampleEnv
      (by simp [guestPolicy, readOnlyPolicy])).1.mpr
      (by intro p hp
          simp [guestPolicy, readOnlyPolicy] at hp
          rcases hp with h | h <;> simp [h, guestPolicy, readOnlyPolicy])

/-- C2: if no registered policy's `evaluate` returns true, `authorize`
fails immediately with the `ProblemDetailsException` whose payload is
(type "forbidden", title "no sufficient permissions", status 403) — the
failure the spec calls kind `NoApplicablePolicy` — and the capability-query
trace is empty: no capability set is queried for the action. -/
theorem authorize_no_applicable {R : Type} (ps : List (Policy R)) (action : String)
    (subject : Option IdentitySubject) (env : Environment)
    (hempty : ps.filter (fun it => it.evaluate subject none env) = []) :
    authorize ps action subject env =
      (Except.error (AuthError.noApplicablePolicy "forbidden" "no sufficient permissions" 403),
        []) := by
  simp [authorize, hempty]

/-- Witness for C2: the empty policy set has no applicable policy, so the
`NoApplicablePolicy` failure is produced with status 403 and an empty
capability-query trace. -/
theorem authorize_no_applicable_witness :
    authorize ([] : List (Policy Unit)) "read" none sampleEnv =
      (Except.error (AuthError.noApplicablePolicy "forbidden" "no sufficient permissions" 403),
        []) :=
  authorize_no_applicable [] "read" none sampleEnv rfl

/-- C9: the shipped default identity resolver returns the empty result
(no subject / anonymous) for every inbound request; being a total function
into `Option IdentitySubject`, it never throws, and absence of credentials
is the empty result `none`, not an error. -/
theorem getSubject_default_anonymous :
    ∀ req : IncomingMessage, getSubject req = none :=
  fun _ => rfl

/-- C10: with the statically registered default policy set (the single
`Guest` policy: always-true `evaluate`, manage-all capability set),
`authorize` succeeds for every action, every subject, and every
environment — hence for every request — and the trace shows exactly the one
Guest capability query: neither the `NoApplicablePolicy` branch nor the
`Forbidden` branch is reachable in the shipped configuration. -/
theorem default_policies_allow_everything :
    ∀ (R : Type) (action : String) (subject : Option IdentitySubject) (env : Environment),
      authorize (policies R) action subject env = (Except.ok (), [("Guest", action)]) := by
  intro R action subject env
  rfl

namespace MessageBus

/-- The outcome of running a subscribed listener on the emitted arguments:
it returns a value, or it throws. -/
inductive HandlerResult (V : Type) where
  | ok (v : V)
  | exn (msg : String)
deriving DecidableEq, Repr

/-- The mutable state of a `MessageBus` instance together with the promise
heap.  `handlers e` is the list of listeners subscribed (via `on`) to event
`e`, in registration order; `registry` is `#pendingEventsRegistry` (a
missing map entry and an empty list are indistinguishable in the source,
which reads entries with `?? []`); `cells i` is the resolution state of the
promise whose resolver got identifier `i` (`none` = pending); `nextId` is
the next fresh resolver identifier. -/
structure BusState (V : Type) where
  handlers : String → List (List V → HandlerResult V)
  registry : String → List Nat
  cells : Nat → Option V
  nextId : Nat

/-- Calling a promise resolver: sets the cell if it is still pending; a
promise resolves at most once, so a second call is a no-op. -/
def resolveCell {V : Type} (cells : Nat → Option V) (id : Nat) (v : V) :
    Nat → Option V :=
  fun j =>
    if j = id then
      match cells id with
      | none => some v
      | some w => some w
    else cells j

/-- `for (const resolve of resolvers) resolve(result)`: call each resolver
in arrival order with the same result. -/
def resolveList {V : Type} (cells : Nat → Option V) (ids : List Nat) (v : V) :
    Nat → Option V :=
  ids.foldl (fun c i => resolveCell c i v) cells

/-- `#execute(eventName, result)`: resolve every waiter currently in the
pending registry entry for `eventName`, then delete the entry. -/
def execute {V : Type} (s : BusState V) (eventName : String) (result : V) :
    BusState V :=
  { s with
    cells := resolveList s.cells (s.registry eventName) result
    registry := fun e => if e = eventName then [] else s.registry e }

/-- The synchronous broadcast of `#emitter.emit`: run each wrapped listener
in registration order; an `ok` result triggers `#execute`, a thrown
exception aborts the remaining listeners and propagates (`some msg`),
leaving the state as it stands. -/
def runListeners {V : Type} (eventName : String) (args : List V) :
    BusState V → List (List V → HandlerResult V) → BusState V × Option String
  | s, [] => (s, none)
  | s, h :: rest =>
      match h args with
      | HandlerResult.ok r => runListeners eventName args (execute s eventName r) rest
      | HandlerResult.exn msg => (s, some msg)

/-- `#emitter.emit(eventName, ...args)`: broadcast to the listeners
subscribed to `eventName`. -/
def emit {V : Type} (s : BusState V) (eventName : String) (args : List V) :
    BusState V × Option String :=
  runListeners eventName args s (s.handlers eventName)

/-- The `Promise` executor inside `send`: allocate a fresh resolver,
push it onto the event's pending list (creating the list if absent), and
store the list back.  Returns the new state and the new waiter's
identifier. -/
def registerWaiter {V : Type} (s : BusState V) (eventName : String) :
    BusState V × Nat :=
  ({ s with
      registry := fun e =>
        if e = eventName then s.registry eventName ++ [s.nextId] else s.registry e
      nextId := s.nextId + 1 },
   s.nextId)

/-- `send(eventName, ...args)`: register a new waiter, then synchronously
emit the event.  Returns the post state, the waiter's identifier (the
returned deferred value), and the exception if the emission threw. -/
def send {V : Type} (s : BusState V) (eventName : String) (args : List V) :
    BusState V × Nat × Option String :=
  let rw := registerWaiter s eventName
  let em := emit rw.1 eventName args
  (em.1, rw.2, em.2)

/-- `on(eventName, listener)`: subscribe the listener (the source wraps it
so that emission runs the listener and then `#execute`; `runListeners`
performs exactly that wrapper's behaviour).  Named `onEvent` here because
`on` is not available as an identifier in this development. -/
def onEvent {V : Type} (s : BusState V) (eventName : String)
    (listener : List V → HandlerResult V) : BusState V :=
  { s with
    handlers := fun e =>
      if e = eventName then s.handlers eventName ++ [listener] else s.handlers e }

/-- Reachable-state invariant of the bus: registered resolver identifiers
are below the allocation counter, cells at or above the counter are
unallocated (pending), waiters sitting in the pending registry are
unresolved, and a resolver belongs to exactly one event's pending list. -/
def WF {V : Type} (s : BusState V) : Prop :=
  (∀ e i, i ∈ s.registry e → i < s.nextId) ∧
  (∀ i, s.nextId ≤ i → s.cells i = none) ∧
  (∀ e i, i ∈ s.registry e → s.cells i = none) ∧
  (∀ e₁ e₂ i, i ∈ s.registry e₁ → i ∈ s.registry e₂ → e₁ = e₂)

lemma resolveCell_ne {V : Type} (cells : Nat → Option V) (id : Nat) (v : V)
    (j : Nat) (h : j ≠ id) : resolveCell cells id v j = cells j := by
  simp [resolveCell, h]

lemma resolveList_cons {V : Type} (cells : Nat → Option V) (i : Nat)
    (rest : List Nat) (v : V) :
    resolveList cells (i :: rest) v = resolveList (resolveCell cells i v) rest v := by
  simp [resolveList]

lemma resolveList_of_some {V : Type} (v : V) (j : Nat) (w : V) :
    ∀ (ids : List Nat) (cells : Nat → Option V), cells j = some w →
      resolveList cells ids v j = some w := by
  intro ids
  induction ids with
  | nil => intro cells h; simpa [resolveList] using h
  | cons i rest ih =>
      intro cells h
      rw [resolveList_cons]
      apply ih
      by_cases hji : j = i
      · subst hji; simp [resolveCell, h]
      · rw [resolveCell_ne cells i v j hji]; exact h

lemma resolveList_of_mem {V : Type} (v : V) (j : Nat) :
    ∀ (ids : List Nat) (cells : Nat → Option V), j ∈ ids → cells j = none →
      resolveList cells ids v j = some v := by
  intro ids
  induction ids with
  | nil => intro cells hmem _; simp at hmem
  | cons i rest ih =>
      intro cells hmem h
      rw [resolveList_cons]
      by_cases hji : j = i
      · exact resolveList_of_some v j v rest (resolveCell cells i v)
          (by subst hji; simp [resolveCell, h])
      · rcases List.mem_cons.mp hmem with heq | hmem2
        · exact absurd heq hji
        · exact ih (resolveCell cells i v) hmem2
            (by rw [resolveCell_ne cells i v j hji]; exact h)

lemma resolveList_of_not_mem {V : Type} (v : V) (j : Nat) :
    ∀ (ids : List Nat) (cells : Nat → Option V), j ∉ ids →
      resolveList cells ids v j = cells j := by
  intro ids
  induction ids with
  | nil => intro cells _; simp [resolveList]
  | cons i rest ih =>
      intro cells hmem
      rw [resolveList_cons]
      have hji : j ≠ i := fun hc => hmem (by simp [hc])
      rw [ih _ (fun hc => hmem (List.mem_cons_of_mem i hc)),
        resolveCell_ne cells i v j hji]

lemma runListeners_cons {V : Type} (E : String) (args : List V)
    (h : List V → HandlerResult V) (rest : List (List V → HandlerResult V))
    (s : BusState V) :
    runListeners E args s (h :: rest) =
      match h args with
      | HandlerResult.ok r => runListeners E args (execute s E r) rest
      | HandlerResult.exn msg => (s, some msg) := rfl

lemma execute_registry_self {V : Type} (s : BusState V) (E : String) (r : V) :
    (execute s E r).registry E = [] := by
  simp [execute]

lemma execute_registry_ne {V : Type} (s : BusState V) (E e : String) (r : V)
    (h : e ≠ E) : (execute s E r).registry e = s.registry e := by
  simp [execute, h]

lemma runListeners_fst_handlers {V : Type} (E : String) (args : List V) :
    ∀ (hs : List (List V → HandlerResult V)) (s : BusState V),
      ((runListeners E args s hs).1).handlers = s.handlers := by
  intro hs
  induction hs with
  | nil => intro s; rfl
  | cons h rest ih =>
      intro s
      rw [runListeners_cons]
      cases hv : h args with
      | ok r => exact (ih (execute s E r)).trans rfl
      | exn msg => rfl

lemma runListeners_fst_nextId {V : Type} (E : String) (args : List V) :
    ∀ (hs : List (List V → HandlerResult V)) (s : BusState V),
      ((runListeners E args s hs).1).nextId = s.nextId := by
  intro hs
  induction hs with
  | nil => intro s; rfl
  | cons h rest ih =>
      intro s
      rw [runListeners_cons]
      cases hv : h args with
      | ok r => exact (ih (execute s E r)).trans rfl
      | exn msg => rfl

lemma runListeners_fst_registry_ne {V : Type} (E e : String) (args : List V)
    (hne : e ≠ E) :
    ∀ (hs : List (List V → HandlerResult V)) (s : BusState V),
      ((runListeners E args s hs).1).registry e = s.registry e := by
  intro hs
  induction hs with
  | nil => intro s; rfl
  | cons h rest ih =>
      intro s
      rw [runListeners_cons]
      cases hv : h args with
      | ok r => exact (ih (execute s E r)).trans (execute_registry_ne s E e r hne)
      | exn msg => rfl

lemma runListeners_fst_registry_self_nil {V : Type} (E : String) (args : List V) :
    ∀ (hs : List (List V → HandlerResult V)) (s : BusState V),
      s.registry E = [] → ((runListeners E args s hs).1).registry E = [] := by
  intro hs
  induction hs with
  | nil => intro s h; exact h
  | cons h rest ih =>
      intro s hreg
      rw [runListeners_cons]
      cases hv : h args with
      | ok r => exact ih (execute s E r) (execute_registry_self s E r)
      | exn msg => exact hreg

lemma runListeners_cells_of_some {V : Type} (E : String) (args : List V)
    (j : Nat) (w : V) :
    ∀ (hs : List (List V → HandlerResult V)) (s : BusState V),
      s.cells j = some w → ((runListeners E args s hs).1).cells j = some w := by
  intro hs
  induction hs with
  | nil => intro s h; exact h
  | cons h rest ih =>
      intro s hc
      rw [runListeners_cons]
      cases hv : h args with
      | ok r =>
          exact ih (execute s E r)
            (resolveList_of_some r j w (s.registry E) s.cells hc)
      | exn msg => exact hc

lemma runListeners_cells_of_not_mem {V : Type} (E : String) (args : List V)
    (j : Nat) :
    ∀ (hs : List (List V → HandlerResult V)) (s : BusState V),
      j ∉ s.registry E → ((runListeners E args s hs).1).cells j = s.cells j := by
  intro hs
  induction hs with
  | nil => intro s _; rfl
  | cons h rest ih =>
      intro s hmem
      rw [runListeners_cons]
      cases hv : h args with
      | ok r =>
          have h1 : ((runListeners E args (execute s E r) rest).1).cells j =
              (execute s E r).cells j := by
            apply ih
            rw [execute_registry_self]
            simp
          rw [h1]
          exact resolveList_of_not_mem r j (s.registry E) s.cells hmem
      | exn msg => rfl

lemma runListeners_head_resolves {V : Type} (E : String) (args : List V)
    (h : List V → HandlerResult V) (rest : List (List V → HandlerResult V))
    (s : BusState V) (j : Nat) (v : V)
    (hj : j ∈ s.registry E) (hc : s.cells j = none)
    (hv : h args = HandlerResult.ok v) :
    ((runListeners E args s (h :: rest)).1).cells j = some v := by
  rw [runListeners_cons, hv]
  exact runListeners_cells_of_some E args j v rest (execute s E v)
    (resolveList_of_mem v j (s.registry E) s.cells hj hc)

lemma registerWaiter_snd {V : Type} (s : BusState V) (E : String) :
    (registerWaiter s E).2 = s.nextId := rfl

lemma registerWaiter_fst_handlers {V : Type} (s : BusState V) (E : String) :
    (registerWaiter s E).1.handlers = s.handlers := rfl

lemma registerWaiter_fst_cells {V : Type} (s : BusState V) (E : String) :
    (registerWaiter s E).1.cells = s.cells := rfl

lemma registerWaiter_fst_nextId {V : Type} (s : BusState V) (E : String) :
    (registerWaiter s E).1.nextId = s.nextId + 1 := rfl

lemma registerWaiter_fst_registry_self {V : Type} (s : BusState V) (E : String) :
    (registerWaiter s E).1.registry E = s.registry E ++ [s.nextId] := by
  simp [registerWaiter]

lemma registerWaiter_fst_registry_ne {V : Type} (s : BusState V) (E e : String)
    (h : e ≠ E) : (registerWaiter s E).1.registry e = s.registry e := by
  simp [registerWaiter, h]

lemma send_fst {V : Type} (s : BusState V) (E : String) (args : List V) :
    (send s E args).1 = (emit (registerWaiter s E).1 E args).1 := rfl

lemma send_snd_fst {V : Type} (s : BusState V) (E : String) (args : List V) :
    (send s E args).2.1 = s.nextId := rfl

lemma send_snd_snd {V : Type} (s : BusState V) (E : String) (args : List V) :
    (send s E args).2.2 = (emit (registerWaiter s E).1 E args).2 := rfl

lemma emit_def {V : Type} (s : BusState V) (E : String) (args : List V) :
    emit s E args = runListeners E args s (s.handlers E) := rfl

lemma onEvent_handlers_self {V : Type} (s : BusState V) (E : String)
    (l : List V → HandlerResult V) :
    (onEvent s E l).handlers E = s.handlers E ++ [l] := by
  simp [onEvent]

lemma onEvent_registry {V : Type} (s : BusState V) (E : String)
    (l : List V → HandlerResult V) : (onEvent s E l).registry = s.registry := rfl

lemma onEvent_cells {V : Type} (s : BusState V) (E : String)
    (l : List V → HandlerResult V) : (onEvent s E l).cells = s.cells := rfl

/-- C4: with exactly one subscriber for event `E` whose handler returns `v`,
a `send(E)` call resolves, with that same value `v`, every waiter already in
`E`'s pending-registry snapshot (for example ones registered by earlier
concurrent `send(E)` callers) as well as the waiter the call itself
registers, and the emission completes without throwing: all of them share
the one waiter-list snapshot that `#execute` resolves and clears. -/
theorem send_resolves_prior_waiters {V : Type} (s : BusState V) (E : String)
    (args : List V) (h : List V → HandlerResult V) (v : V)
    (hwf : WF s) (hh : s.handlers E = [h]) (hv : h args = HandlerResult.ok v) :
    (∀ id ∈ s.registry E, ((send s E args).1).cells id = some v) ∧
    ((send s E args).1).cells (send s E args).2.1 = some v ∧
    (send s E args).2.2 = none := by
  obtain ⟨wf1, wf2, wf3, _⟩ := hwf
  have hh1 : (registerWaiter s E).1.handlers E = [h] := hh
  have hreg : (registerWaiter s E).1.registry E = s.registry E ++ [s.nextId] :=
    registerWaiter_fst_registry_self s E
  refine ⟨?_, ?_, ?_⟩
  · intro id hid
    rw [send_fst, emit_def, hh1]
    apply runListeners_head_resolves E args h [] _ id v
    · rw [hreg]; exact List.mem_append_left _ hid
    · exact wf3 E id hid
    · exact hv
  · rw [send_fst, send_snd_fst, emit_def, hh1]
    apply runListeners_head_resolves E args h [] _ s.nextId v
    · rw [hreg]; exact List.mem_append_right _ (by simp)
    · exact wf2 s.nextId (le_refl _)
    · exact hv
  · rw [send_snd_snd, emit_def, hh1, runListeners_cons, hv]
    rfl

/-- C5: a successful emission of `E` (first subscribed handler returning
`v`) resolves every waiter in `E`'s current pending-registry entry and
clears the entry; a waiter registered after that clearing starts a fresh
registry entry containing only itself, is still pending (it does not
receive the already-computed value), is left pending by emissions of other
event names, and is resolved only by a subsequent emission of `E` (here one
whose handler returns `v2`). -/
theorem emission_clears_and_fresh_waiter {V : Type} (s : BusState V) (E : String)
    (args args2 : List V) (h : List V → HandlerResult V)
    (rest : List (List V → HandlerResult V)) (v v2 : V)
    (hwf : WF s) (hh : s.handlers E = h :: rest)
    (hv : h args = HandlerResult.ok v) (hv2 : h args2 = HandlerResult.ok v2) :
    (∀ id ∈ s.registry E, ((send s E args).1).cells id = some v) ∧
    ((send s E args).1).registry E = [] ∧
    (registerWaiter (send s E args).1 E).1.registry E =
      [(registerWaiter (send s E args).1 E).2] ∧
    (registerWaiter (send s E args).1 E).1.cells
      (registerWaiter (send s E args).1 E).2 = none ∧
    (∀ E2 args3, E2 ≠ E →
      ((emit (registerWaiter (send s E args).1 E).1 E2 args3).1).cells
        (registerWaiter (send s E args).1 E).2 = none) ∧
    ((emit (registerWaiter (send s E args).1 E).1 E args2).1).cells
      (registerWaiter (send s E args).1 E).2 = some v2 := by
  obtain ⟨wf1, wf2, wf3, _⟩ := hwf
  have hh1 : (registerWaiter s E).1.handlers E = h :: rest := hh
  have hreg : (registerWaiter s E).1.registry E = s.registry E ++ [s.nextId] :=
    registerWaiter_fst_registry_self s E
  have hclear : ((send s E args).1).registry E = [] := by
    rw [send_fst, emit_def, hh1, runListeners_cons, hv]
    exact runListeners_fst_registry_self_nil E args rest _
      (execute_registry_self _ E v)
  have hnid : (registerWaiter (send s E args).1 E).2 = s.nextId + 1 := by
    rw [registerWaiter_snd, send_fst, emit_def, runListeners_fst_nextId,
      registerWaiter_fst_nextId]
  have hfreshreg : (registerWaiter (send s E args).1 E).1.registry E =
      [(registerWaiter (send s E args).1 E).2] := by
    rw [registerWaiter_fst_registry_self, hclear, registerWaiter_snd]
    rfl
  have hnotmem : s.nextId + 1 ∉ (registerWaiter s E).1.registry E := by
    rw [hreg]
    intro hmem
    rcases List.mem_append.mp hmem with hmem | hmem
    · have := wf1 E _ hmem; omega
    · rw [List.mem_singleton] at hmem; omega
  have hcells1 : ((send s E args).1).cells (s.nextId + 1) = none := by
    rw [send_fst, emit_def,
      runListeners_cells_of_not_mem E args _ _ _ hnotmem]
    exact wf2 _ (by omega)
  have hcellsnid : (registerWaiter (send s E args).1 E).1.cells
      (registerWaiter (send s E args).1 E).2 = none := by
    rw [registerWaiter_fst_cells, hnid]
    exact hcells1
  refine ⟨?_, hclear, hfreshreg, hcellsnid, ?_, ?_⟩
  · intro id hid
    rw [send_fst, emit_def, hh1]
    apply runListeners_head_resolves E args h rest _ id v
    · rw [hreg]; exact List.mem_append_left _ hid
    · exact wf3 E id hid
    · exact hv
  · intro E2 args3 hne
    have hnot : (registerWaiter (send s E args).1 E).2 ∉
        (registerWaiter (send s E args).1 E).1.registry E2 := by
      rw [hnid, registerWaiter_fst_registry_ne _ _ _ hne, send_fst, emit_def,
        runListeners_fst_registry_ne E E2 args hne,
        registerWaiter_fst_registry_ne _ _ _ hne]
      intro hmem
      have := wf1 E2 _ hmem; omega
    rw [emit_def, runListeners_cells_of_not_mem E2 args3 _ _ _ hnot]
    exact hcellsnid
  · rw [emit_def]
    have hh2 : (registerWaiter (send s E args).1 E).1.handlers E = h :: rest := by
      rw [registerWaiter_fst_handlers, send_fst, emit_def,
        runListeners_fst_handlers, registerWaiter_fst_handlers]
      exact hh
    rw [hh2]
    apply runListeners_head_resolves E args2 h rest _ _ v2
    · rw [hfreshreg]; simp
    · exact hcellsnid
    · exact hv2

/-- C7: a `send(E)` with zero subscribed handlers registers its waiter
(appended to `E`'s pending entry), throws nothing, and returns a deferred
value that never completes on its own: the waiter's cell stays pending,
emissions of other event names leave it pending, and it is resolved only
once a handler is subscribed to `E` and a subsequent emission of `E`
delivers that handler's value. -/
theorem send_without_handlers_pends {V : Type} (s : BusState V) (E : String)
    (args : List V) (hwf : WF s) (hh : s.handlers E = []) :
    (send s E args).2.2 = none ∧
    ((send s E args).1).cells (send s E args).2.1 = none ∧
    ((send s E args).1).registry E = s.registry E ++ [(send s E args).2.1] ∧
    (∀ E2 args2, E2 ≠ E →
      ((emit (send s E args).1 E2 args2).1).cells (send s E args).2.1 = none) ∧
    (∀ (h2 : List V → HandlerResult V) (v2 : V) (args2 : List V),
      h2 args2 = HandlerResult.ok v2 →
      ((emit (onEvent (send s E args).1 E h2) E args2).1).cells
        (send s E args).2.1 = some v2) := by
  obtain ⟨wf1, wf2, wf3, _⟩ := hwf
  have hh1 : (registerWaiter s E).1.handlers E = [] := hh
  have hs1 : (send s E args).1 = (registerWaiter s E).1 := by
    rw [send_fst, emit_def, hh1]
    rfl
  have hcellsid : ((send s E args).1).cells (send s E args).2.1 = none := by
    rw [hs1, send_snd_fst, registerWaiter_fst_cells]
    exact wf2 _ (le_refl _)
  have hregid : ((send s E args).1).registry E =
      s.registry E ++ [(send s E args).2.1] := by
    rw [hs1, send_snd_fst]
    exact registerWaiter_fst_registry_self s E
  refine ⟨?_, hcellsid, hregid, ?_, ?_⟩
  · rw [send_snd_snd, emit_def, hh1]
    rfl
  · intro E2 args2 hne
    have hnot : (send s E args).2.1 ∉ ((send s E args).1).registry E2 := by
      rw [hs1, send_snd_fst, registerWaiter_fst_registry_ne _ _ _ hne]
      intro hmem
      have := wf1 E2 _ hmem; omega
    rw [emit_def, runListeners_cells_of_not_mem E2 args2 _ _ _ hnot]
    exact hcellsid
  · intro h2 v2 args2 hv2
    have hh2 : (onEvent (send s E args).1 E h2).handlers E = [h2] := by
      rw [onEvent_handlers_self, hs1, registerWaiter_fst_handlers, hh]
      rfl
    rw [emit_def, hh2]
    apply runListeners_head_resolves E args2 h2 [] _ _ v2
    · rw [onEvent_registry, hregid]
      exact List.mem_append_right _ (by simp)
    · rw [onEvent_cells]
      exact hcellsid
    · exact hv2

/-- C6 (amended): a subscribed handler that throws during result
computation is not caught by the bus: the exception propagates
synchronously out of the emission to the `send` caller, `#execute` never
runs, no resolution (value or failure) is delivered to any waiter — the
promise heap is exactly as before the emission — and the just-registered
waiter (like every earlier one) is left pending in the registry. -/
theorem handler_throw_escapes {V : Type} (s : BusState V) (E : String)
    (args : List V) (h : List V → HandlerResult V)
    (rest : List (List V → HandlerResult V)) (msg : String)
    (hh : s.handlers E = h :: rest) (hv : h args = HandlerResult.exn msg) :
    (send s E args).2.2 = some msg ∧
    ((send s E args).1).cells = s.cells ∧
    ((send s E args).1).registry E = s.registry E ++ [s.nextId] := by
  have hh1 : (registerWaiter s E).1.handlers E = h :: rest := hh
  have hs1 : (send s E args).1 = (registerWaiter s E).1 := by
    rw [send_fst, emit_def, hh1, runListeners_cons, hv]
  refine ⟨?_, ?_, ?_⟩
  · rw [send_snd_snd, emit_def, hh1, runListeners_cons, hv]
  · rw [hs1, registerWaiter_fst_cells]
  · rw [hs1]
    exact registerWaiter_fst_registry_self s E

/-- A concrete bus: one subscriber for every event returning "pong", two
waiters (0 and 1) already pending for event "ping", next fresh resolver 2. -/
def pendingBus : BusState String :=
  { handlers := fun _ => [fun _ => HandlerResult.ok "pong"]
    registry := fun e => if e = "ping" then [0, 1] else []
    cells := fun _ => none
    nextId := 2 }

lemma WF_pendingBus : WF pendingBus := by
  refine ⟨?_, ?_, ?_, ?_⟩
  · intro e i hi
    simp only [pendingBus] at hi
    by_cases he : e = "ping"
    · subst he
      simp at hi
      rcases hi with rfl | rfl <;> decide
    · simp [he] at hi
  · intro i _; rfl
  · intro e i _; rfl
  · intro e1 e2 i h1 h2
    simp only [pendingBus] at h1 h2
    by_cases he1 : e1 = "ping"
    · by_cases he2 : e2 = "ping"
      · rw [he1, he2]
      · simp [he2] at h2
    · simp [he1] at h1

/-- Witness for C4: on `pendingBus`, `send("ping")` resolves both waiters
0 and 1 and the newly registered waiter 2 with the subscriber's value
"pong", and throws nothing. -/
theorem send_resolves_prior_waiters_witness :
    ((send pendingBus "ping" []).1).cells 0 = some "pong" ∧
    ((send pendingBus "ping" []).1).cells 1 = some "pong" ∧
    ((send pendingBus "ping" []).1).cells (send pendingBus "ping" []).2.1 =
      some "pong" ∧
    (send pendingBus "ping" []).2.2 = none := by
  have h := send_resolves_prior_waiters pendingBus "ping" []
    (fun _ => HandlerResult.ok "pong") "pong" WF_pendingBus rfl rfl
  exact ⟨h.1 0 (by simp [pendingBus]), h.1 1 (by simp [pendingBus]),
    h.2.1, h.2.2⟩

/-- Witness for C5: on `pendingBus`, after `send("ping")` the "ping"
registry entry is cleared; a waiter then registered for "ping" is alone in
a fresh entry and still pending; an emission of the different event name
"other" leaves it pending; a subsequent emission of "ping" resolves it to
"pong". -/
theorem emission_clears_and_fresh_waiter_witness :
    ((send pendingBus "ping" []).1).registry "ping" = [] ∧
    (registerWaiter (send pendingBus "ping" []).1 "ping").1.registry "ping" =
      [(registerWaiter (send pendingBus "ping" []).1 "ping").2] ∧
    (registerWaiter (send pendingBus "ping" []).1 "ping").1.cells
      (registerWaiter (send pendingBus "ping" []).1 "ping").2 = none ∧
    ((emit (registerWaiter (send pendingBus "ping" []).1 "ping").1
        "other" []).1).cells
      (registerWaiter (send pendingBus "ping" []).1 "ping").2 = none ∧
    ((emit (registerWaiter (send pendingBus "ping" []).1 "ping").1
        "ping" []).1).cells
      (registerWaiter (send pendingBus "ping" []).1 "ping").2 = some "pong" := by
  have h := emission_clears_and_fresh_waiter pendingBus "ping" [] []
    (fun _ => HandlerResult.ok "pong") [] "pong" "pong" WF_pendingBus rfl rfl rfl
  exact ⟨h.2.1, h.2.2.1, h.2.2.2.1, h.2.2.2.2.1 "other" [] (by decide),
    h.2.2.2.2.2⟩

/-- A concrete bus with no subscribers, no pending waiters and no
allocated resolvers. -/
def silentBus : BusState String :=
  { handlers := fun _ => []
    registry := fun _ => []
    cells := fun _ => none
    nextId := 0 }

lemma WF_silentBus : WF silentBus := by
  refine ⟨?_, ?_, ?_, ?_⟩
  · intro e i hi; simp [silentBus] at hi
  · intro i _; rfl
  · intro e i hi; simp [silentBus] at hi
  · intro e1 e2 i h1 _; simp [silentBus] at h1

/-- Witness for C7: on `silentBus` (zero handlers), `send("ping")` throws
nothing, its waiter 0 stays pending, emitting "other" leaves it pending,
and only after subscribing a handler and emitting "ping" again does it
resolve, to that handler's value "pong". -/
theorem send_without_handlers_pends_witness :
    (send silentBus "ping" []).2.2 = none ∧
    ((send silentBus "ping" []).1).cells 0 = none ∧
    ((emit (send silentBus "ping" []).1 "other" []).1).cells 0 = none ∧
    ((emit (onEvent (send silentBus "ping" []).1 "ping"
        (fun _ => HandlerResult.ok "pong")) "ping" []).1).cells 0 =
      some "pong" := by
  have h := send_without_handlers_pends silentBus "ping" [] WF_silentBus rfl
  exact ⟨h.1, h.2.1, h.2.2.2.1 "other" [] (by decide),
    h.2.2.2.2 (fun _ => HandlerResult.ok "pong") "pong" [] rfl⟩

/-- A concrete bus whose only subscriber (for every event) throws "boom";
one waiter (0) already pends for event "E". -/
def throwingBus : BusState String :=
  { handlers := fun _ => [fun _ => HandlerResult.exn "boom"]
    registry := fun _ => [0]
    cells := fun _ => none
    nextId := 1 }

/-- Counterexample to C6: on `throwingBus`, `send("E")` lets the handler's
exception escape the bus to the caller (the emission's thrown-exception
component is `some "boom"`), and neither the pre-existing waiter 0 nor the
newly registered waiter 1 receives any resolution, failed or otherwise:
both cells are still pending after the call.  The bus does not catch the
exception and delivers no failed resolution. -/
theorem handler_throw_not_caught_counterexample :
    (send throwingBus "E" []).2.2 = some "boom" ∧
    ((send throwingBus "E" []).1).cells 0 = none ∧
    ((send throwingBus "E" []).1).cells 1 = none :=
  ⟨rfl, rfl, rfl⟩

/-- Witness for the amended C6: `handler_throw_escapes` applied to
`throwingBus` at event "E": the exception propagates out of `send`, the
promise heap is untouched, and the registry still holds waiters 0 and 1. -/
theorem handler_throw_escapes_witness :
    (send throwingBus "E" []).2.2 = some "boom" ∧
    ((send throwingBus "E" []).1).cells = throwingBus.cells ∧
    ((send throwingBus "E" []).1).registry "E" = [0, 1] := by
  have h := handler_throw_escapes throwingBus "E" []
    (fun _ => HandlerResult.exn "boom") [] "boom" rfl rfl
  exact ⟨h.1, h.2.1, (h.2.2).trans rfl⟩

end MessageBus

/-- The opaque unit-of-work handle (`EntityManager` from typeorm) held in
the execution context; this core never inspects it. -/
structure EntityManager where
  handle : Nat
deriving DecidableEq, Repr

/-- The opaque Node `EventEmitter` reference held in the execution context;
this core never inspects it. -/
structure EventEmitter where
  handle : Nat
deriving DecidableEq, Repr

/-- `AsyncContext` from `context.ts`: the per-request resource bundle. -/
structure AsyncContext where
  em : EntityManager
  bus : EventEmitter
deriving DecidableEq, Repr

/-- The failure `getContext` throws when no store is bound: the spec's
`ContextNotFoundError`, carrying the source's message string. -/
inductive ContextError where
  | contextNotFound (msg : String)
deriving DecidableEq, Repr

/-- `getContext` from `context.ts`: read `asyncLocalStorage.getStore()`;
the store is `none` exactly when the call happens outside the dynamic
extent of every `run` scope, and then the error is thrown; otherwise the
bound context is returned.  As a pure function of the bound store, its
outcome is the same on every call with the same scope situation. -/
def getContext (store : Option AsyncContext) :
    Except ContextError AsyncContext :=
  match store with
  | none => Except.error (ContextError.contextNotFound "Context not found")
  | some s => Except.ok s

namespace AsyncLocalStorage

/-- `asyncLocalStorage.run(store, body)`: within the dynamic extent of
`body`, `getStore()` returns `some store`; the body receives the bound
store to model that dynamic binding. -/
def run {α : Type} (store : AsyncContext) (body : Option AsyncContext → α) : α :=
  body (some store)

end AsyncLocalStorage

/-- C3: every `currentContext()` call outside the dynamic extent of any
`run` scope — that is, with no bound store — fails with
`ContextNotFoundError`; being a pure function of the bound store, it does
so deterministically on every such call; and inside a `run` scope it
returns exactly the bound `ExecutionContext`. -/
theorem getContext_outside_and_inside_run :
    (getContext none =
      Except.error (ContextError.contextNotFound "Context not found")) ∧
    (∀ ctx : AsyncContext, AsyncLocalStorage.run ctx getContext = Except.ok ctx) :=
  ⟨rfl, fun _ => rfl⟩

/-- C8: environment extraction is total: for every request `getEnv`
produces an `Environment` (it is a total function, so it cannot throw),
assembling exactly the parsed client-agent data, the raw header, and the
client address; an absent client-agent header degrades to the
empty/unknown structured parse result; and with no proxy-forwarding
headers the client address falls back to the direct connection address
(which may itself be absent, degrading to `none`). -/
theorem getEnv_total_and_degrading :
    (∀ req : IncomingMessage,
      getEnv req =
        { ip := getIp req
          userAgent := req.headers "user-agent"
          userAgentData := uaParserGetResult (req.headers "user-agent") }) ∧
    (∀ req : IncomingMessage, req.headers "user-agent" = none →
      (getEnv req).userAgentData = emptyResult) ∧
    (∀ req : IncomingMessage, req.headers "x-forwarded-for" = none →
      req.headers "x-real-ip" = none → getIp req = req.remoteAddress) := by
  refine ⟨fun req => rfl, ?_, ?_⟩
  · intro req h
    simp [getEnv, uaParserGetResult, h]
  · intro req h1 h2
    simp [getIp, getClientIp, h1, h2]

/-- A concrete request carrying no headers at all, connected from
127.0.0.1. -/
def bareRequest : IncomingMessage :=
  { headers := fun _ => none, remoteAddress := some "127.0.0.1" }

/-- Witness for C8: on a request with no headers, extraction yields the
empty parse result and falls back to the connection address; nothing is
thrown (a value is produced). -/
theorem getEnv_total_and_degrading_witness :
    (getEnv bareRequest).userAgentData = emptyResult ∧
    getIp bareRequest = some "127.0.0.1" :=
  ⟨getEnv_total_and_degrading.2.1 bareRequest rfl,
   (getEnv_total_and_degrading.2.2 bareRequest rfl rfl).trans rfl⟩
